import Mathlib

/-!
Verification development for the ts-typed-errors library.

The development shallowly embeds the runtime behaviour of the library
(src/errors/defineError.ts, src/match/base.ts, src/match/public.ts,
src/core/wrap.ts, src/core/types.ts, src/utils/guards.ts and
src/utils/serialization.ts) into Lean.  JavaScript values are modelled by
an inductive type carrying a per-object frozen flag (for Object.freeze),
a prototype-chain of constructor identifiers (for instanceof) and a list
of named fields.  All definitions are computable so that concrete runs
of the embedded code can be checked by evaluation.
-/

/-- Primitive JavaScript values: undefined, null, booleans, numbers and
strings.  Numbers are modelled as integers; no claim in this development
depends on floating point behaviour. -/
inductive Prim where
  | undefined
  | null
  | bool (b : Bool)
  | num (n : Int)
  | str (s : String)
deriving DecidableEq, Repr

/-- JavaScript values.  An object carries a frozen flag (set by
Object.freeze), the list of constructor identifiers of its prototype
chain (used to decide instanceof) and its fields.  Property reads that
walk the prototype chain are modelled by flattening inherited data
properties into the field list of each instance. -/
inductive Val where
  | prim (p : Prim)
  | obj (frozen : Bool) (ctorChain : List Nat) (fields : List (String × Val))
deriving Repr

/-- Looks up a key in an association list of fields, first hit wins, the
same way a JavaScript property read resolves a name. -/
def lookupA {β : Type} : List (String × β) → String → Option β
  | [], _ => none
  | (k2, v) :: rest, k => if k2 == k then some v else lookupA rest k

/-- Sets a key in an association list: an existing entry is replaced in
place, a new entry is appended, matching JavaScript property writes and
Map.set. -/
def setA {β : Type} : List (String × β) → String → β → List (String × β)
  | [], k, v => [(k, v)]
  | (k2, v2) :: rest, k, v =>
    if k2 == k then (k, v) :: rest else (k2, v2) :: setA rest k v

/-- Reads a property of a value; primitives expose no modelled fields. -/
def getField : Val → String → Option Val
  | .prim _, _ => none
  | .obj _ _ fs, k => lookupA fs k

/-- The JavaScript test (key in value), restricted to the flattened
field list of the object. -/
def hasField (v : Val) (k : String) : Bool :=
  (getField v k).isSome

/-- Truthiness of a JavaScript value: objects are always truthy, and of
the primitives exactly non-zero numbers, true and non-empty strings are
truthy. -/
def truthy : Val → Bool
  | .prim .undefined => false
  | .prim .null => false
  | .prim (.bool b) => b
  | .prim (.num n) => n != 0
  | .prim (.str s) => s != ""
  | .obj _ _ _ => true

/-- Whether typeof v is the string object and v is not null, the guard
used by the duck-typed checks in the library. -/
def isObjVal : Val → Bool
  | .obj _ _ _ => true
  | _ => false

/-- Whether a value is null or undefined, the test performed by the
nullish coalescing operator. -/
def isNullish : Val → Bool
  | .prim .undefined => true
  | .prim .null => true
  | _ => false

/-- The instanceof test against a constructor identifier: true when the
identifier occurs in the prototype chain of the object. -/
def instanceOfId : Val → Nat → Bool
  | .obj _ ch _, cid => ch.contains cid
  | .prim _, _ => false

/-- Object.freeze: marks the top level object frozen; nested objects are
untouched (the JavaScript freeze is shallow).  Freezing a primitive
returns it unchanged. -/
def freezeTop : Val → Val
  | .obj _ ch fs => .obj true ch fs
  | .prim p => .prim p

mutual
/-- Erases every frozen flag in a value; two values are deep equal in
the JavaScript sense used by the spec exactly when their erasures are
equal. -/
def eraseFrozen : Val → Val
  | .prim p => .prim p
  | .obj _ ch fs => .obj false ch (eraseFrozenL fs)

/-- Pointwise erasure of frozen flags over a field list. -/
def eraseFrozenL : List (String × Val) → List (String × Val)
  | [] => []
  | (k, v) :: rest => (k, eraseFrozen v) :: eraseFrozenL rest
end

/-- A non-strict-mode property assignment on a single object: silently a
no-op when the object is frozen or when the target is a primitive,
otherwise updates the field. -/
def setOwn (v : Val) (k : String) (x : Val) : Val :=
  match v with
  | .obj frozen ch fs => if frozen then .obj frozen ch fs else .obj frozen ch (setA fs k x)
  | .prim p => .prim p

/-- A property assignment at the end of a path, as in e.data.a.b = x.
Only the frozen flag of the object that receives the assignment matters;
parent objects merely keep referencing the (possibly mutated) child,
which the functional embedding renders as a structural write-back. -/
def setPath : List String → Val → Val → Val
  | [], _, v => v
  | [k], x, v => setOwn v k x
  | k :: k2 :: ks, x, v =>
    match v with
    | .obj fr ch fs =>
      match lookupA fs k with
      | some child => .obj fr ch (setA fs k (setPath (k2 :: ks) x child))
      | none => .obj fr ch fs
    | .prim p => .prim p

/-- A chained property read along a path. -/
def getPath : Val → List String → Option Val
  | v, [] => some v
  | v, k :: ks =>
    match getField v k with
    | some child => getPath child ks
    | none => none

/-- String conversion of a value, as used by String(value) in the
serializer for non-Error inputs. -/
def jsString : Val → String
  | .prim .undefined => "undefined"
  | .prim .null => "null"
  | .prim (.bool b) => if b then "true" else "false"
  | .prim (.num n) => toString n
  | .prim (.str s) => s
  | .obj _ _ _ => "[object Object]"

/-- The constructor identifier of the host base Error class; every error
instance carries it in its prototype chain. -/
def errorCid : Nat := 0

/-- An error constructor value, as accepted by the matcher and the
deserializer (core/types.ts, ErrorCtor).  cid is the identity used by
instanceof; jsName models the runtime .name of the class; protoTag
models the value of ctor.prototype.tag when it is a string (none
otherwise); construct models new ctor(message, data); isFn models an
optional static is method. -/
structure ECtor where
  cid : Nat
  jsName : String
  protoTag : Option String
  construct : Option String → Option Val → Val
  isFn : Option (Val → Bool)

/-- The instanceof test against a constructor. -/
def instanceOfE (c : ECtor) (v : Val) : Bool :=
  instanceOfId v c.cid

/-- The data slot computed by the variant constructor in defineError.ts:
a truthy data argument is shallowly frozen, any other argument
(omitted, undefined, null or otherwise falsy) is replaced by a fresh,
unfrozen empty object. -/
def teData : Option Val → Val
  | some d => if truthy d then freezeTop d else .obj false [] []
  | none => .obj false [] []

/-- An instance produced by a defineError variant with tag name tag and
instanceof identity cid: the message defaults to the tag via nullish
coalescing, name mirrors the tag, and data is given by teData.  The
class fields tag and data are installed on the instance, and name and
message come from the Error base.  Host stack information is out of
scope and not modelled. -/
def mkTE (tag : String) (cid : Nat) (msg : Option String) (data : Option Val) : Val :=
  .obj false [cid, errorCid]
    [("tag", .prim (.str tag)),
     ("name", .prim (.str tag)),
     ("message", .prim (.str (msg.getD tag))),
     ("data", teData data)]

/-- The static is check of a defineError variant: an instanceof hit, or
a non-null object whose tag field is strictly equal to the tag name. -/
def teIs (tag : String) (cid : Nat) (v : Val) : Bool :=
  instanceOfId v cid ||
    (isObjVal v &&
      match getField v "tag" with
      | some (.prim (.str s)) => s == tag
      | _ => false)

/-- The constructor returned by defineError(tag)().  The class body is
literally named TE in the source, so the runtime .name of every factory
constructor is the string TE.  The field initializer for tag is a class
field, installed on each instance, so ctor.prototype.tag is undefined
and protoTag is none. -/
def mkTECtor (tag : String) (cid : Nat) : ECtor :=
  { cid := cid
    jsName := "TE"
    protoTag := none
    construct := fun msg data => mkTE tag cid msg data
    isFn := some (teIs tag cid) }

/-- One registered rule of a matcher: a test and a run function
(interface CaseRunner in match/base.ts).  The async engine has the same
shape with promised results; since rules are tried strictly
sequentially and exactly one handler runs, the synchronous embedding
covers both flavors. -/
structure MCase where
  test : Val → Bool
  run : Val → Val

/-- The mutable state of baseMatcher in match/base.ts: the ordered case
list, the tag to handler lookup table filled by withCtor, and the flag
recording whether the table was ever written. -/
structure MatcherState where
  cases : List MCase
  tagHandlers : List (String × (Val → Val))
  hasTagHandlers : Bool

/-- The initial matcher state. -/
def emptyMatcher : MatcherState :=
  { cases := [], tagHandlers := [], hasTagHandlers := false }

/-- withCtor in match/base.ts: when ctor.prototype.tag is a truthy
string the handler is also indexed in the tag table, then an instanceof
rule is appended. -/
def regWithCtor (st : MatcherState) (c : ECtor) (h : Val → Val) : MatcherState :=
  let st2 :=
    match c.protoTag with
    | some t =>
      if t != "" then
        { st with tagHandlers := setA st.tagHandlers t h, hasTagHandlers := true }
      else st
    | none => st
  { st2 with cases := st2.cases ++ [⟨fun e => instanceOfE c e, h⟩] }

/-- withGuard in match/base.ts: the guard itself is the test. -/
def regWithGuard (st : MatcherState) (g : Val → Bool) (h : Val → Val) : MatcherState :=
  { st with cases := st.cases ++ [⟨g, h⟩] }

/-- when in match/base.ts: the predicate is the test. -/
def regWhen (st : MatcherState) (p : Val → Bool) (h : Val → Val) : MatcherState :=
  { st with cases := st.cases ++ [⟨p, h⟩] }

/-- withAnyCtor in match/base.ts: the test is instanceof any listed
constructor. -/
def regWithAny (st : MatcherState) (cs : List ECtor) (h : Val → Val) : MatcherState :=
  { st with cases := st.cases ++ [⟨fun e => cs.any (fun c => instanceOfE c e), h⟩] }

/-- withNotCtor in match/base.ts: the test is instanceof none of the
listed constructors (a single constructor argument is wrapped into a
one-element list by the source). -/
def regWithNot (st : MatcherState) (cs : List ECtor) (h : Val → Val) : MatcherState :=
  { st with cases := st.cases ++ [⟨fun e => !(cs.any (fun c => instanceOfE c e)), h⟩] }

/-- The value e.data optional-chained at a key, as read by the run step
of selectCtor: undefined when data is missing, nullish or a primitive,
or when the key is absent. -/
def dataKey (e : Val) (k : String) : Val :=
  match getField e "data" with
  | some (.obj _ _ fs) => (lookupA fs k).getD (.prim .undefined)
  | _ => .prim .undefined

/-- selectCtor in match/base.ts: an instanceof test whose run step hands
the handler only the selected data field. -/
def regSelect (st : MatcherState) (c : ECtor) (k : String) (h : Val → Val) : MatcherState :=
  { st with cases := st.cases ++ [⟨fun e => instanceOfE c e, fun e => h (dataKey e k)⟩] }

/-- The tag fast path shared by otherwise and runExhaustive: when the
table was ever written and the subject is a non-null object exposing a
tag field, the table is consulted with that tag (Map.get with a
non-string key finds nothing, since only string tags are inserted). -/
def fastLookup (st : MatcherState) (e : Val) : Option (Val → Val) :=
  if st.hasTagHandlers && isObjVal e && hasField e "tag" then
    match getField e "tag" with
    | some (.prim (.str s)) => lookupA st.tagHandlers s
    | _ => none
  else none

/-- The linear scan over the registered cases: the first rule whose test
passes produces the result. -/
def firstMatch : List MCase → Val → Option Val
  | [], _ => none
  | c :: rest, e => if c.test e then some (c.run e) else firstMatch rest e

/-- The terminal otherwise of match/base.ts: tag fast path first, then
the linear scan, then the fallback. -/
def runOtherwise (st : MatcherState) (e : Val) (fb : Val → Val) : Val :=
  match fastLookup st e with
  | some h => h e
  | none =>
    match firstMatch st.cases e with
    | some r => r
    | none => fb e

/-- The terminal runExhaustive of match/base.ts: tag fast path first,
then the linear scan, and a thrown Non-exhaustive error when nothing
matched, modelled in the error component. -/
def runExhaustive (st : MatcherState) (e : Val) : Except String Val :=
  match fastLookup st e with
  | some h => .ok (h e)
  | none =>
    match firstMatch st.cases e with
    | some r => .ok r
    | none => .error "Non-exhaustive matchErrorOf"

/-- One fluent call on a matcher chain from match/public.ts.  The cwith
argument mirrors the isCtor dispatch of the source: a Sum.inl carries a
recognized error constructor, a Sum.inr carries a guard function. -/
inductive ChainOp where
  | cwith (cg : Sum ECtor (Val → Bool)) (h : Val → Val)
  | cwithAny (cs : List ECtor) (h : Val → Val)
  | cwithNot (cs : List ECtor) (h : Val → Val)
  | cselect (c : ECtor) (k : String) (h : Val → Val)
  | cwhen (p : Val → Bool) (h : Val → Val)
  | cmap (f : Val → Val)

/-- The effect of one chain call on the underlying matcher state; map
leaves the rule list untouched. -/
def applyReg (st : MatcherState) : ChainOp → MatcherState
  | .cwith (.inl c) h => regWithCtor st c h
  | .cwith (.inr g) h => regWithGuard st g h
  | .cwithAny cs h => regWithAny st cs h
  | .cwithNot cs h => regWithNot st cs h
  | .cselect c k h => regSelect st c k h
  | .cwhen p h => regWhen st p h
  | .cmap _ => st

/-- The effect of one chain call on the pair of matcher state and
working subject: map replaces the single subject reference by its
transform, every other call registers a rule (match/public.ts). -/
def applyOp (p : MatcherState × Val) (op : ChainOp) : MatcherState × Val :=
  match op with
  | .cmap f => (p.fst, f p.snd)
  | _ => (applyReg p.fst op, p.snd)

/-- Runs a whole fluent chain at registration time, starting from the
empty matcher and the original subject. -/
def buildChain (ops : List ChainOp) (e : Val) : MatcherState × Val :=
  ops.foldl applyOp (emptyMatcher, e)

/-- matchError(e) chained through ops and terminated by otherwise. -/
def matchOtherwise (ops : List ChainOp) (e : Val) (fb : Val → Val) : Val :=
  runOtherwise (buildChain ops e).fst (buildChain ops e).snd fb

/-- matchErrorOf(e) chained through ops and terminated by exhaustive. -/
def matchExhaustive (ops : List ChainOp) (e : Val) : Except String Val :=
  runExhaustive (buildChain ops e).fst (buildChain ops e).snd

/-- The transforms supplied to map along a chain, in call order. -/
def mapsOf : List ChainOp → List (Val → Val)
  | [] => []
  | .cmap f :: rest => f :: mapsOf rest
  | _ :: rest => mapsOf rest

/-- Left to right composition of the map transforms over a subject. -/
def applyMaps (e : Val) (fs : List (Val → Val)) : Val :=
  fs.foldl (fun v f => f v) e

/-- The matcher state produced by the registration calls of a chain
alone. -/
def regsFold (ops : List ChainOp) : MatcherState :=
  ops.foldl applyReg emptyMatcher

/-- The outcome of invoking a JavaScript function: either a normal
completion with a value (for an async function, a fulfilled awaited
value) or a thrown value (a synchronous throw or an awaited
rejection).  The try block of wrap in core/wrap.ts awaits the call, so
both failure modes reach its catch clause the same way. -/
inductive JsOutcome where
  | ret (v : Val)
  | thr (e : Val)

/-- The Result value of core/types.ts: the success variant holding a
value or the failure variant holding the causing value. -/
inductive ResultV where
  | ok (value : Val)
  | err (error : Val)
deriving Repr

/-- wrap of core/wrap.ts applied to a function and an argument: a normal
completion becomes the success variant and any thrown value becomes the
failure variant, verbatim; the wrapper itself always returns a
ResultV and never throws, which the total return type of this
embedding makes structural. -/
def wrapModel {α : Type} (fn : α → JsOutcome) (a : α) : ResultV :=
  match fn a with
  | .ret v => .ok v
  | .thr e => .err e

/-- isAnyOf of utils/guards: some instanceof hit over the constructor
list. -/
def isAnyOf (v : Val) (cs : List ECtor) : Bool :=
  cs.any (fun c => instanceOfE c v)

/-- isAllOf of utils/guards: every guard accepts the value. -/
def isAllOf (v : Val) (gs : List (Val → Bool)) : Bool :=
  gs.all (fun g => g v)

/-- The transport record of utils/serialization.ts.  The tag slot is
kept as a value because the source copies error.tag verbatim and later
compares it with strict equality. -/
structure SErr where
  tag : Val
  message : String
  name : String
  data : Option Val
  stack : Option String

/-- Reads a string field with a default, as the serializer does for the
message and name slots of an Error instance. -/
def getStrField (v : Val) (k : String) (d : String) : String :=
  match getField v k with
  | some (.prim (.str s)) => s
  | _ => d

/-- serialize of utils/serialization.ts: a non-Error input becomes an
UnknownError record; an Error input yields its tag (falling back to the
name under nullish coalescing), message and name, its data only when
the data field is present and truthy, and its stack only when requested
and truthy. -/
def serialize (v : Val) (includeStack : Bool) : SErr :=
  if instanceOfId v errorCid = false then
    { tag := .prim (.str "UnknownError")
      message := jsString v
      name := "UnknownError"
      data := none
      stack := none }
  else
    let nm := getStrField v "name" ""
    let tagv :=
      match getField v "tag" with
      | some x => if isNullish x then Val.prim (.str nm) else x
      | none => Val.prim (.str nm)
    let dataSlot :=
      match getField v "data" with
      | some d => if truthy d then some d else none
      | none => none
    let stackSlot :=
      if includeStack then
        match getField v "stack" with
        | some st => if truthy st then some (jsString st) else none
        | none => none
      else none
    { tag := tagv
      message := getStrField v "message" ""
      name := nm
      data := dataSlot
      stack := stackSlot }

/-- Strict equality between a string and a value, as in the comparisons
of ctor.name with the record slots inside deserialize. -/
def strValEq (s : String) (v : Val) : Bool :=
  match v with
  | .prim (.str s2) => s == s2
  | _ => false

/-- Overwrites the stack of a freshly constructed error with the literal
record stack when that is present and truthy, as deserialize does. -/
def withStack (v : Val) : Option String → Val
  | some st => if st != "" then setOwn v "stack" (.prim (.str st)) else v
  | none => v

/-- The generic fallback of deserialize when no candidate matches: a
plain Error carrying the recorded message, whose name is overwritten,
and onto which truthy data, tag and stack slots are attached. -/
def genericFromSErr (s : SErr) : Val :=
  let base := Val.obj false [errorCid]
    [("message", .prim (.str s.message)), ("name", .prim (.str s.name))]
  let base :=
    match s.data with
    | some d => if truthy d then setOwn base "data" d else base
    | none => base
  let base :=
    if truthy s.tag then setOwn base "tag" s.tag else base
  withStack base s.stack

/-- deserialize of utils/serialization.ts: candidates are tried in list
order; a candidate whose static is accepts a probe object carrying the
recorded tag wins, otherwise a candidate whose runtime class name
strictly equals the recorded tag or name wins; the winner is
reconstructed from the recorded message and data and its stack is
overwritten from the record; with no winner the generic fallback is
produced. -/
def deserialize (s : SErr) : List ECtor → Val
  | [] => genericFromSErr s
  | c :: rest =>
    let hit :=
      match c.isFn with
      | some f => f (Val.obj false [] [("tag", s.tag)])
      | none => false
    if hit then withStack (c.construct (some s.message) s.data) s.stack
    else if strValEq c.jsName s.tag || c.jsName == s.name then
      withStack (c.construct (some s.message) s.data) s.stack
    else deserialize s rest

/-- C4: wrap converts every outcome of the wrapped function into exactly
one Result variant, success holding the returned value and failure
holding the thrown value verbatim, and never throws (the embedding of
wrap is a total function into ResultV). -/
theorem c4_wrap_result {α : Type} (fn : α → JsOutcome) (a : α) :
    (∀ v, wrapModel fn a = .ok v ↔ fn a = .ret v) ∧
    (∀ e, wrapModel fn a = .err e ↔ fn a = .thr e) ∧
    ¬ (∃ v e, wrapModel fn a = .ok v ∧ wrapModel fn a = .err e) := by
  cases h : fn a <;> simp [wrapModel, h]

/-- C8: the static is of a defineError variant accepts exactly the
instanceof hits and the non-null objects whose tag field is the tag
string; being a total Bool function, it never throws. -/
theorem c8_variant_is (t : String) (cid : Nat) (v : Val) :
    teIs t cid v = true ↔
      (instanceOfId v cid = true ∨
        ∃ fr ch fs, v = Val.obj fr ch fs ∧
          lookupA fs "tag" = some (Val.prim (Prim.str t))) := by
  cases v with
  | prim p => simp [teIs, instanceOfId, isObjVal]
  | obj fr ch fs =>
    have key : (∃ fr2 ch2 fs2, Val.obj fr ch fs = Val.obj fr2 ch2 fs2 ∧
        lookupA fs2 "tag" = some (Val.prim (Prim.str t))) ↔
        lookupA fs "tag" = some (Val.prim (Prim.str t)) :=
      ⟨fun ⟨_, _, _, heq, hl⟩ => by cases heq; exact hl,
       fun hl => ⟨fr, ch, fs, rfl, hl⟩⟩
    rw [key]
    rcases h : lookupA fs "tag" with _ | x
    · simp [teIs, isObjVal, getField, h]
    · cases x with
      | prim p => cases p <;> simp [teIs, isObjVal, getField, h]
      | obj fr2 ch2 fs2 => simp [teIs, isObjVal, getField, h]

/-- C9: isAnyOf is true exactly when the value is an instance of some
listed constructor (false on the empty list) and isAllOf is true
exactly when every listed guard accepts the value (true on the empty
list); both are total Bool functions and never throw. -/
theorem c9_any_all (v : Val) (cs : List ECtor) (gs : List (Val → Bool)) :
    (isAnyOf v cs = true ↔ ∃ c ∈ cs, instanceOfE c v = true) ∧
    isAnyOf v [] = false ∧
    (isAllOf v gs = true ↔ ∀ g ∈ gs, g v = true) ∧
    isAllOf v [] = true := by
  refine ⟨?_, rfl, ?_, rfl⟩ <;>
    simp [isAnyOf, isAllOf, List.any_eq_true, List.all_eq_true]

/-- C10: when the data argument is omitted or falsy, the constructed
variant instance carries a fresh empty unfrozen object as its data, and
a later property assignment on that default payload succeeds and is
observable. -/
theorem c10_default_data_unfrozen (t : String) (cid : Nat) (msg : Option String)
    (dopt : Option Val)
    (h : dopt = none ∨ ∃ d, dopt = some d ∧ truthy d = false) :
    getField (mkTE t cid msg dopt) "data" = some (Val.obj false [] []) ∧
    ∀ k x, getPath (setPath ["data", k] x (mkTE t cid msg dopt)) ["data", k] = some x := by
  have hd : teData dopt = Val.obj false [] [] := by
    rcases h with h | ⟨d, hd, ht⟩
    · simp [h, teData]
    · simp [hd, teData, ht]
  constructor
  · simp [mkTE, getField, lookupA, hd]
  · intro k x
    simp [mkTE, hd, setPath, setOwn, setA, getPath, getField, lookupA]

/-- C10 witness: a concrete variant built without data has an unfrozen
empty payload and accepts a later field assignment. -/
theorem c10_default_data_unfrozen_witness :
    getField (mkTE "T" 1 none none) "data" = some (Val.obj false [] []) ∧
    getPath (setPath ["data", "x"] (Val.prim (Prim.num 5)) (mkTE "T" 1 none none))
        ["data", "x"] = some (Val.prim (Prim.num 5)) := by
  have h := c10_default_data_unfrozen "T" 1 none none (Or.inl rfl)
  exact ⟨h.1, h.2 "x" (Val.prim (Prim.num 5))⟩

/-- A variant constructor used by the concrete run of claim C6. -/
def ctorA : ECtor := mkTECtor "A" 3

/-- A concrete instance of the C6 variant. -/
def c6Subject : Val := mkTE "A" 3 none none

/-- The C6 chain: a withNot rule over the variant registered before a
with rule for the same variant. -/
def c6Ops : List ChainOp :=
  [.cwithNot [ctorA] (fun _ => .prim (.num 1)),
   .cwith (.inl ctorA) (fun _ => .prim (.num 2))]

/-- C6 counterexample: with withNot([A]) registered before with(A), an
instance of A produces the result of the with(A) handler, not the
withNot handler, because the withNot test rejects instances of A. -/
theorem c6_counterexample :
    matchOtherwise c6Ops c6Subject (fun _ => .prim (.num 0)) = .prim (.num 2) ∧
    Val.prim (.num 2) ≠ Val.prim (.num 1) := by
  refine ⟨rfl, ?_⟩
  simp

/-- C6 amended: in a matcher registering withNot([A]) before with(A), a
subject that is an instance of A is caught by the with(A) handler; the
earlier withNot rule tests instanceof none of its listed constructors
and therefore rejects every instance of A. -/
theorem c6_amended (t : String) (cid : Nat) (h1 h2 fb : Val → Val) (s : Val)
    (hs : instanceOfE (mkTECtor t cid) s = true) :
    matchOtherwise
      [.cwithNot [mkTECtor t cid] h1, .cwith (.inl (mkTECtor t cid)) h2] s fb = h2 s := by
  have hs2 : instanceOfId s cid = true := by simpa [instanceOfE, mkTECtor] using hs
  simp [matchOtherwise, buildChain, applyOp, applyReg, regWithNot, regWithCtor, mkTECtor,
        emptyMatcher, runOtherwise, fastLookup, firstMatch, instanceOfE, hs2]

/-- C6 witness: the amended statement at a concrete variant and
instance. -/
theorem c6_amended_witness :
    instanceOfE (mkTECtor "B" 9) (mkTE "B" 9 none none) = true ∧
    matchOtherwise
      [.cwithNot [mkTECtor "B" 9] (fun _ => Val.prim (Prim.num 1)),
       .cwith (.inl (mkTECtor "B" 9)) (fun _ => Val.prim (Prim.num 2))]
      (mkTE "B" 9 none none) (fun _ => Val.prim (Prim.num 0)) = Val.prim (Prim.num 2) :=
  ⟨rfl, c6_amended "B" 9 _ _ _ _ rfl⟩

/-- A nested payload used by the concrete run of claim C3. -/
def c3Payload : Val := .obj false [] [("a", .obj false [] [("b", .prim (.num 1))])]

/-- A concrete variant instance built with the nested payload. -/
def c3Err : Val := mkTE "T" 4 (some "m") (some c3Payload)

/-- C3 counterexample: the payload is only shallowly frozen, so an
assignment to a field of a nested object inside data takes effect and
is observable afterwards, contradicting the deep-freeze claim. -/
theorem c3_counterexample :
    getPath c3Err ["data", "a", "b"] = some (.prim (.num 1)) ∧
    getPath (setPath ["data", "a", "b"] (.prim (.num 2)) c3Err) ["data", "a", "b"]
      = some (.prim (.num 2)) := ⟨rfl, rfl⟩

/-- C3 amended: for every tag, message and payload object d, the
constructed data is the shallow freeze of d (hence deep-equal to d
after erasing frozen flags), and assigning any top-level field of data
has no effect because the payload object itself is frozen at
construction; fields of nested objects inside d remain mutable, as the
counterexample shows. -/
theorem c3_amended (t : String) (cid : Nat) (msg : Option String)
    (fr : Bool) (ch : List Nat) (fs : List (String × Val)) :
    getField (mkTE t cid msg (some (Val.obj fr ch fs))) "data"
      = some (freezeTop (Val.obj fr ch fs)) ∧
    eraseFrozen (freezeTop (Val.obj fr ch fs)) = eraseFrozen (Val.obj fr ch fs) ∧
    ∀ k x, setPath ["data", k] x (mkTE t cid msg (some (Val.obj fr ch fs)))
      = mkTE t cid msg (some (Val.obj fr ch fs)) := by
  refine ⟨?_, ?_, ?_⟩
  · simp [mkTE, getField, lookupA, teData, freezeTop, truthy]
  · simp [eraseFrozen, freezeTop]
  · intro k x
    simp [mkTE, teData, freezeTop, truthy, setPath, setOwn, setA, lookupA]

/-- The helper decomposition for claim C7: running a fluent chain
equals, in the first component, folding only the registration calls
and, in the second component, composing the map transforms over the
subject from left to right. -/
lemma buildChain_decompose (ops : List ChainOp) (st : MatcherState) (s : Val) :
    ops.foldl applyOp (st, s) = (ops.foldl applyReg st, applyMaps s (mapsOf ops)) := by
  induction ops generalizing st s with
  | nil => simp [applyMaps, mapsOf]
  | cons op rest ih =>
    cases op with
    | cmap f =>
      simpa [applyOp, applyReg, mapsOf, applyMaps] using ih st (f s)
    | cwith cg h =>
      simpa [applyOp, applyReg, mapsOf, applyMaps] using ih (applyReg st (.cwith cg h)) s
    | cwithAny cs h =>
      simpa [applyOp, applyReg, mapsOf, applyMaps] using ih (applyReg st (.cwithAny cs h)) s
    | cwithNot cs h =>
      simpa [applyOp, applyReg, mapsOf, applyMaps] using ih (applyReg st (.cwithNot cs h)) s
    | cselect c k h =>
      simpa [applyOp, applyReg, mapsOf, applyMaps] using ih (applyReg st (.cselect c k h)) s
    | cwhen p h =>
      simpa [applyOp, applyReg, mapsOf, applyMaps] using ih (applyReg st (.cwhen p h)) s

/-- C7: however many map calls a chain contains, the terminal otherwise
and exhaustive calls evaluate the registered rules, the matching
handler and the fallback on the single subject obtained by composing
the supplied transforms left to right over the original value, and on
nothing else. -/
theorem c7_map_composes (ops : List ChainOp) (e : Val) (fb : Val → Val) :
    matchOtherwise ops e fb = runOtherwise (regsFold ops) (applyMaps e (mapsOf ops)) fb ∧
    matchExhaustive ops e = runExhaustive (regsFold ops) (applyMaps e (mapsOf ops)) := by
  have h := buildChain_decompose ops emptyMatcher e
  constructor <;> simp [matchOtherwise, matchExhaustive, buildChain, regsFold, h]

/-- An Error subclass that exposes its tag on the prototype (for
example through a prototype getter), so that the withCtor read of
ctor.prototype.tag finds the string A and indexes the rule in the tag
table.  Factory constructors never do this, because the tag class field
lives on instances. -/
def protoTagged : ECtor :=
  { cid := 7
    jsName := "C"
    protoTag := some "A"
    construct := fun _ _ => Val.prim Prim.undefined
    isFn := none }

/-- An instance of the prototype-tagged class: its chain contains the
class and the base Error, and reading tag through the prototype yields
the string A. -/
def c1Subject : Val := Val.obj false [7, errorCid] [("tag", .prim (.str "A"))]

/-- The C1 chain: a when rule accepting everything registered before a
constructor rule for the prototype-tagged class. -/
def c1Ops : List ChainOp :=
  [.cwhen (fun _ => true) (fun _ => .prim (.num 1)),
   .cwith (.inl protoTagged) (fun _ => .prim (.num 2))]

/-- C1: at the failing input, the terminal otherwise consults the tag
table first and returns the constructor handler result 2, while the
linear first-match scan over the same registered rules returns the
earlier when handler result 1; the fast path therefore changes the
observable first-match outcome. -/
theorem c1_fast_path_diverges :
    matchOtherwise c1Ops c1Subject (fun _ => .prim (.num 0)) = .prim (.num 2) ∧
    firstMatch (buildChain c1Ops c1Subject).fst.cases c1Subject = some (.prim (.num 1)) :=
  ⟨rfl, rfl⟩

/-- A plain object carrying the tag A without being an instance of any
class, as a value deserialized from transport would be. -/
def c5Subject : Val := Val.obj false [] [("tag", .prim (.str "A"))]

/-- The C5 chain: a single constructor rule for the prototype-tagged
class. -/
def c5Ops : List ChainOp := [.cwith (.inl protoTagged) (fun _ => .prim (.num 2))]

/-- C5: at the failing input no registered rule test accepts the
subject, so the linear scan finds nothing and the claim requires the
Non-exhaustive failure, yet the terminal exhaustive call returns the
constructor handler result through the tag table. -/
theorem c5_fast_path_skips_check :
    matchExhaustive c5Ops c5Subject = .ok (.prim (.num 2)) ∧
    firstMatch (buildChain c5Ops c5Subject).fst.cases c5Subject = none :=
  ⟨rfl, rfl⟩

/-- Serializing a variant instance built with a message and an object
payload yields the record carrying its tag, message, name, the frozen
payload, and no stack (host stack information is not modelled). -/
lemma serialize_mkTE (t : String) (cid : Nat) (m : String)
    (fr : Bool) (ch : List Nat) (fs : List (String × Val)) :
    serialize (mkTE t cid (some m) (some (Val.obj fr ch fs))) true =
      { tag := .prim (.str t)
        message := m
        name := t
        data := some (Val.obj true ch fs)
        stack := none } := by
  simp [serialize, mkTE, teData, freezeTop, truthy, instanceOfId, errorCid,
        getField, lookupA, getStrField, isNullish]

/-- A factory constructor whose tag differs from the recorded tag is
skipped by deserialize whenever the recorded tag also differs from the
literal class name TE: its is probe fails and so does the name
fallback. -/
lemma deserialize_factory_skip (t t2 : String) (cid2 : Nat) (m : String)
    (dv : Option Val) (rest : List ECtor)
    (hne : t2 ≠ t) (hTE : t ≠ "TE") :
    deserialize ⟨.prim (.str t), m, t, dv, none⟩ (mkTECtor t2 cid2 :: rest)
      = deserialize ⟨.prim (.str t), m, t, dv, none⟩ rest := by
  have h1 : (t == t2) = false := beq_eq_false_iff_ne.mpr (Ne.symm hne)
  have h2 : ("TE" == t) = false := beq_eq_false_iff_ne.mpr (fun h => hTE h.symm)
  simp [deserialize, mkTECtor, teIs, instanceOfId, isObjVal, getField, lookupA,
        strValEq, h1, h2]

/-- A factory constructor whose tag equals the recorded tag is matched
by its is probe, and deserialize reconstructs the instance from the
recorded message and data; with no recorded stack nothing is
overwritten. -/
lemma deserialize_factory_hit (t : String) (cid : Nat) (m : String)
    (dv : Option Val) (rest : List ECtor) :
    deserialize ⟨.prim (.str t), m, t, dv, none⟩ (mkTECtor t cid :: rest)
      = mkTE t cid (some m) dv := by
  simp [deserialize, mkTECtor, teIs, instanceOfId, isObjVal, getField, lookupA,
        withStack]

/-- C2 amended: the round trip through serialize and deserialize
returns an instance of the same variant with the original message and
a payload deep-equal to the original, for every constructor list that
contains the variant, provided the variant tag is not the literal
string TE (the runtime class name every factory constructor reports,
against which the deserialize name fallback compares) and no
constructor placed earlier in the list carries the same tag. -/
theorem c2_roundtrip_amended (t : String) (cid : Nat) (m : String)
    (fr : Bool) (ch : List Nat) (fs : List (String × Val))
    (pre post : List ECtor)
    (hTE : t ≠ "TE")
    (hpre : ∀ c ∈ pre, ∃ t2 cid2, c = mkTECtor t2 cid2 ∧ t2 ≠ t) :
    deserialize (serialize (mkTE t cid (some m) (some (Val.obj fr ch fs))) true)
        (pre ++ mkTECtor t cid :: post)
      = mkTE t cid (some m) (some (Val.obj true ch fs)) ∧
    instanceOfId (mkTE t cid (some m) (some (Val.obj true ch fs))) cid = true ∧
    getField (mkTE t cid (some m) (some (Val.obj true ch fs))) "message"
      = some (Val.prim (Prim.str m)) ∧
    getField (mkTE t cid (some m) (some (Val.obj true ch fs))) "data"
      = some (Val.obj true ch fs) ∧
    eraseFrozen (Val.obj true ch fs) = eraseFrozen (Val.obj fr ch fs) := by
  rw [serialize_mkTE]
  have main : ∀ pre2 : List ECtor,
      (∀ c ∈ pre2, ∃ t2 cid2, c = mkTECtor t2 cid2 ∧ t2 ≠ t) →
      deserialize ⟨.prim (.str t), m, t, some (Val.obj true ch fs), none⟩
          (pre2 ++ mkTECtor t cid :: post)
        = mkTE t cid (some m) (some (Val.obj true ch fs)) := by
    intro pre2 hpre2
    induction pre2 with
    | nil => simpa using deserialize_factory_hit t cid m (some (Val.obj true ch fs)) post
    | cons c pre3 ih =>
      obtain ⟨t2, cid2, hc, hne⟩ := hpre2 c (List.mem_cons_self c pre3)
      subst hc
      rw [List.cons_append,
          deserialize_factory_skip t t2 cid2 m (some (Val.obj true ch fs))
            (pre3 ++ mkTECtor t cid :: post) hne hTE]
      exact ih (fun c2 hc2 => hpre2 c2 (List.mem_cons_of_mem _ hc2))
  refine ⟨main pre hpre, ?_, ?_, ?_, ?_⟩
  · simp [mkTE, instanceOfId]
  · simp [mkTE, getField, lookupA]
  · simp [mkTE, getField, lookupA, teData, freezeTop, truthy]
  · simp [eraseFrozen]

/-- C2 witness: a concrete round trip through a two-constructor list
whose first entry carries a different tag. -/
theorem c2_roundtrip_witness :
    deserialize
        (serialize
          (mkTE "NetworkError" 2 (some "Request failed")
            (some (Val.obj false [] [("status", .prim (.num 500)), ("url", .prim (.str "/api"))])))
          true)
        ([mkTECtor "W" 1] ++ mkTECtor "NetworkError" 2 :: [])
      = mkTE "NetworkError" 2 (some "Request failed")
          (some (Val.obj true [] [("status", .prim (.num 500)), ("url", .prim (.str "/api"))])) ∧
    instanceOfId
        (mkTE "NetworkError" 2 (some "Request failed")
          (some (Val.obj true [] [("status", .prim (.num 500)), ("url", .prim (.str "/api"))]))) 2
      = true := by
  have h := c2_roundtrip_amended "NetworkError" 2 "Request failed" false []
    [("status", .prim (.num 500)), ("url", .prim (.str "/api"))]
    [mkTECtor "W" 1] [] (by decide)
    (by
      intro c hc
      simp only [List.mem_singleton] at hc
      exact ⟨"W", 1, hc, by decide⟩)
  exact ⟨h.1, h.2.1⟩

/-- A factory variant used only as a decoy in the C2 counterexample. -/
def ctorW : ECtor := mkTECtor "W" 1

/-- A factory variant whose chosen tag collides with the literal
runtime class name of every factory constructor. -/
def ctorTEtag : ECtor := mkTECtor "TE" 2

/-- A concrete instance of the TE-tagged variant. -/
def c2Bad : Val := mkTE "TE" 2 (some "m") (some (Val.obj false [] [("x", .prim (.num 1))]))

/-- C2 counterexample: with the variant tag TE, deserialize matches the
earlier unrelated constructor through the class-name fallback, so the
round trip yields an instance of the wrong variant. -/
theorem c2_counterexample :
    instanceOfId (deserialize (serialize c2Bad true) [ctorW, ctorTEtag]) 2 = false ∧
    instanceOfId (deserialize (serialize c2Bad true) [ctorW, ctorTEtag]) 1 = true :=
  ⟨rfl, rfl⟩
